import Mathlib

/-!
Shallow embedding of the `faster.db` record store (src/src/index.ts).

Records are modelled as association lists from field names to primitive
values; JavaScript objects have unique keys, but the embedding works on
plain lists and field access always returns the first binding, matching
property lookup on an object literal. An absent argument (`undefined` /
`null`, falsy in JS) is modelled as `none` of an `Option`; an empty object
`{}` (truthy in JS) is `some []`. The file system is an explicit value:
the backing file is absent, readable with a parseable record sequence, or
bad (a read raises a non-ENOENT error, or the content fails to parse).
Each public method of the `Database` class becomes a pure function from
the store state, the file state and the method arguments to the new store
state, the new file state, the list of emitted events and the returned
value. Methods whose usage errors escape to the caller return an `Except`.
-/

namespace FasterDB

/-- Primitive field values compared with JavaScript strict equality. -/
inductive Val where
  | str : String → Val
  | int : Int → Val
  | bool : Bool → Val
deriving DecidableEq, Repr

/-- A record (or a query): a field-name/value association list. -/
abbrev Rec := List (String × Val)

/-- JS property lookup `obj[key]`: first binding wins, `none` is `undefined`. -/
def getField : Rec → String → Option Val
  | [], _ => none
  | (k, v) :: rest, key => if k = key then some v else getField rest key

/-- The partial-match predicate used verbatim by `get`, `delete`,
`dataExists` and `countEntries`: every field present in the query must be
strictly equal to the record's corresponding field. -/
def matchesQuery (entry : Rec) (query : Rec) : Bool :=
  query.all fun kv => getField entry kv.1 == some kv.2

/-- JS object spread `{...d, ...p}`: keys of `d` in order with `p`'s value
when `p` also binds the key, then the keys of `p` absent from `d`. -/
def spread (d p : Rec) : Rec :=
  (d.map fun kv =>
    match getField p kv.1 with
    | some v2 => (kv.1, v2)
    | none => kv)
  ++ p.filter fun kv => (getField d kv.1).isNone

/-- Events emitted by the `Database` event emitter. -/
inductive Event where
  | connected (Path : String)
  | newData (data : Rec)
  | dataDeleted (OriginalLength ActualLength : Nat) (Completed : Bool)
  | error (msg : String)
deriving DecidableEq, Repr

/-- The backing file: absent (read raises ENOENT), good (read and
JSON-parse succeed, yielding the records), or bad (read raises a
non-ENOENT error, or the text fails to parse). -/
inductive FileState where
  | absent
  | good (records : List Rec)
  | bad
deriving DecidableEq, Repr

/-- The mutable fields of a `Database` handle. -/
structure DBState where
  data : List Rec
  errorOccurred : Bool
  dataLoaded : Bool
  path : String
  defaultData : Rec
deriving DecidableEq, Repr

/-- Constructor-time path normalization: append `.fastdb` once if missing. -/
def normalizePath (p : String) : String :=
  if p.endsWith ".fastdb" then p else p ++ ".fastdb"

/-- `new Database(path, defaultData)`. -/
def mkDatabase (path : String) (defaultData : Rec) : DBState :=
  { data := [], errorOccurred := false, dataLoaded := false,
    path := normalizePath path, defaultData := defaultData }

/-- `save()`: overwrite the file with the serialized in-memory sequence. -/
def save (st : DBState) (_fs : FileState) : FileState :=
  .good st.data

/-- Outcome of `loadData()`: new state, new file state, emitted events, and
whether it returned normally (`ok = false` means it threw to its caller). -/
structure LoadResult where
  st : DBState
  fs : FileState
  events : List Event
  ok : Bool
deriving DecidableEq, Repr

/-- `loadData()`: on an unloaded handle, read and parse the file, set the
loaded flag and emit `connected`; on ENOENT, set the sequence to empty and
save (without setting the flag or emitting); any other failure propagates. -/
def loadData (st : DBState) (fs : FileState) : LoadResult :=
  if st.dataLoaded then ⟨st, fs, [], true⟩
  else
    match fs with
    | .good rs =>
        ⟨{ st with data := rs, dataLoaded := true }, fs, [.connected st.path], true⟩
    | .absent =>
        let st' := { st with data := ([] : List Rec) }
        ⟨st', save st' fs, [], true⟩
    | .bad => ⟨st, fs, [], false⟩

/-- Result of one public operation. -/
structure OpResult (α : Type) where
  st : DBState
  fs : FileState
  events : List Event
  res : α
deriving Repr

/-- The empty/absent test `!query || Object.keys(query).length === 0`. -/
def emptyQuery : Option Rec → Bool
  | none => true
  | some q => q.isEmpty

/-- `insert(data)`. -/
def insert (st : DBState) (fs : FileState) (data? : Option Rec) :
    OpResult (Option Rec) :=
  let L := loadData st fs
  if L.ok then
    match data? with
    | none =>
        ⟨L.st, L.fs, L.events ++ [.error "Data to insert cannot be empty"], none⟩
    | some d =>
        let newEntry := spread L.st.defaultData d
        let st' := { L.st with data := L.st.data ++ [newEntry] }
        ⟨st', save st' L.fs, L.events ++ [.newData newEntry], some newEntry⟩
  else
    ⟨{ L.st with errorOccurred := true }, L.fs,
      L.events ++ [.error "load failed"], none⟩

/-- `getAll()`. -/
def getAll (st : DBState) (fs : FileState) : OpResult (Option (List Rec)) :=
  let L := loadData st fs
  if L.ok then ⟨L.st, L.fs, L.events, some L.st.data⟩
  else
    ⟨{ L.st with errorOccurred := true }, L.fs,
      L.events ++ [.error "load failed"], none⟩

/-- `deleteAll()`. -/
def deleteAll (st : DBState) (fs : FileState) : OpResult Bool :=
  let L := loadData st fs
  if L.ok then
    let originalLength := L.st.data.length
    let st' := { L.st with data := ([] : List Rec) }
    ⟨st', save st' L.fs, L.events ++ [.dataDeleted originalLength 0 true], true⟩
  else
    ⟨{ L.st with errorOccurred := true }, L.fs,
      L.events ++ [.error "load failed"], false⟩

/-- `get(query)`: note that only an absent (falsy) query is rejected; the
empty object `{}` is truthy and falls through to the linear search. -/
def get (st : DBState) (fs : FileState) (query? : Option Rec) :
    OpResult (Option Rec) :=
  let L := loadData st fs
  if L.ok then
    match query? with
    | none =>
        ⟨L.st, L.fs, L.events ++ [.error "Cannot search for an empty query"], none⟩
    | some q =>
        ⟨L.st, L.fs, L.events, L.st.data.find? fun e => matchesQuery e q⟩
  else
    ⟨{ L.st with errorOccurred := true }, L.fs,
      L.events ++ [.error "load failed"], none⟩

/-- `delete(query)`: the empty-query `throw` sits inside the method's own
`try`, so it is caught by the same `catch` as operational errors. -/
def delete (st : DBState) (fs : FileState) (query? : Option Rec) :
    OpResult Nat :=
  let L := loadData st fs
  if L.ok then
    if emptyQuery query? then
      ⟨{ L.st with errorOccurred := true }, L.fs,
        L.events ++ [.error "Cannot delete with an empty query"], 0⟩
    else
      let q := query?.getD []
      let originalLength := L.st.data.length
      let kept := L.st.data.filter fun e => !matchesQuery e q
      let st' := { L.st with data := kept }
      ⟨st', save st' L.fs,
        L.events ++ [.dataDeleted originalLength kept.length true],
        originalLength - kept.length⟩
  else
    ⟨{ L.st with errorOccurred := true }, L.fs,
      L.events ++ [.error "load failed"], 0⟩

/-- `dataExists(query)`: like `delete`, its empty-query `throw` is inside
the `try` and therefore caught, returning `false`. -/
def dataExists (st : DBState) (fs : FileState) (query? : Option Rec) :
    OpResult Bool :=
  let L := loadData st fs
  if L.ok then
    if emptyQuery query? then
      ⟨{ L.st with errorOccurred := true }, L.fs,
        L.events ++ [.error "Cannot check existence with an empty query"], false⟩
    else
      ⟨L.st, L.fs, L.events,
        L.st.data.any fun e => matchesQuery e (query?.getD [])⟩
  else
    ⟨{ L.st with errorOccurred := true }, L.fs,
      L.events ++ [.error "load failed"], false⟩

/-- `countEntries(query)`: its empty-query check sits before the `try`, so
the usage error really does escape to the caller, before any file access. -/
def countEntries (st : DBState) (fs : FileState) (query? : Option Rec) :
    OpResult (Except String (Option Nat)) :=
  if emptyQuery query? then
    ⟨st, fs, [], .error "Cannot count entries with an empty query"⟩
  else
    let L := loadData st fs
    if L.ok then
      ⟨L.st, L.fs, L.events,
        .ok (some (L.st.data.filter fun e =>
          matchesQuery e (query?.getD [])).length)⟩
    else
      ⟨{ L.st with errorOccurred := true }, L.fs,
        L.events ++ [.error "load failed"], .ok none⟩

/-- `Array.from(new Set(values))`: deduplicate keeping first occurrences. -/
def dedupFirst : List (Option Val) → List (Option Val)
  | [] => []
  | a :: rest => a :: dedupFirst (rest.filter fun b => b ≠ a)
termination_by l => l.length
decreasing_by
  simp only [List.length_cons]
  exact Nat.lt_succ_of_le (List.length_filter_le _ _)

/-- `findDistinct(field)`: rejects a falsy field (the empty string) before
the `try`; then loads and delegates to `getAll` for the values. -/
def findDistinct (st : DBState) (fs : FileState) (field : String) :
    OpResult (Except String (Option (List (Option Val)))) :=
  if field = "" then
    ⟨st, fs, [], .error "Field to find distinct values for cannot be empty"⟩
  else
    let L := loadData st fs
    if L.ok then
      let G := getAll L.st L.fs
      match G.res with
      | some data =>
          ⟨G.st, G.fs, L.events ++ G.events,
            .ok (some (dedupFirst (data.map fun e => getField e field)))⟩
      | none => ⟨G.st, G.fs, L.events ++ G.events, .ok none⟩
    else
      ⟨{ L.st with errorOccurred := true }, L.fs,
        L.events ++ [.error "load failed"], .ok none⟩

/-- `filterData(filterFn)`: rejects an absent function before the `try`. -/
def filterData (st : DBState) (fs : FileState)
    (filterFn? : Option (Rec → Bool)) :
    OpResult (Except String (Option (List Rec))) :=
  match filterFn? with
  | none => ⟨st, fs, [], .error "Filter function cannot be empty"⟩
  | some f =>
      let L := loadData st fs
      if L.ok then ⟨L.st, L.fs, L.events, .ok (some (L.st.data.filter f))⟩
      else
        ⟨{ L.st with errorOccurred := true }, L.fs,
          L.events ++ [.error "load failed"], .ok none⟩

/-- `paginateData(page, pageSize)`: the parameter check
`!page || !pageSize || page < 1 || pageSize < 1` sits before the `try`. -/
def paginateData (st : DBState) (fs : FileState) (page? pageSize? : Option Int) :
    OpResult (Except String (Option (List Rec))) :=
  match page?, pageSize? with
  | some page, some pageSize =>
      if page = 0 || pageSize = 0 || page < 1 || pageSize < 1 then
        ⟨st, fs, [], .error "Invalid parameters for pagination"⟩
      else
        let L := loadData st fs
        if L.ok then
          let start := ((page - 1) * pageSize).toNat
          ⟨L.st, L.fs, L.events,
            .ok (some ((L.st.data.drop start).take pageSize.toNat))⟩
        else
          ⟨{ L.st with errorOccurred := true }, L.fs,
            L.events ++ [.error "load failed"], .ok none⟩
  | _, _ => ⟨st, fs, [], .error "Invalid parameters for pagination"⟩

/-- One public store operation, with its arguments. -/
inductive Op where
  | insertOp (data? : Option Rec)
  | getAllOp
  | deleteAllOp
  | getOp (query? : Option Rec)
  | deleteOp (query? : Option Rec)
  | dataExistsOp (query? : Option Rec)
  | countEntriesOp (query? : Option Rec)
  | findDistinctOp (field : String)
  | filterDataOp (filterFn? : Option (Rec → Bool))
  | paginateDataOp (page? pageSize? : Option Int)

/-- The state/file transition performed by one public operation. -/
def applyOp : Op → DBState → FileState → DBState × FileState
  | .insertOp d, st, fs => let r := insert st fs d; (r.st, r.fs)
  | .getAllOp, st, fs => let r := getAll st fs; (r.st, r.fs)
  | .deleteAllOp, st, fs => let r := deleteAll st fs; (r.st, r.fs)
  | .getOp q, st, fs => let r := get st fs q; (r.st, r.fs)
  | .deleteOp q, st, fs => let r := delete st fs q; (r.st, r.fs)
  | .dataExistsOp q, st, fs => let r := dataExists st fs q; (r.st, r.fs)
  | .countEntriesOp q, st, fs => let r := countEntries st fs q; (r.st, r.fs)
  | .findDistinctOp f, st, fs => let r := findDistinct st fs f; (r.st, r.fs)
  | .filterDataOp f, st, fs => let r := filterData st fs f; (r.st, r.fs)
  | .paginateDataOp p s, st, fs => let r := paginateData st fs p s; (r.st, r.fs)

/-- Whether the operation's argument check lets it reach `loadData` (so a
bad file becomes a caught operational error rather than a usage error). -/
def reachesLoad : Op → Bool
  | .insertOp _ => true
  | .getAllOp => true
  | .deleteAllOp => true
  | .getOp _ => true
  | .deleteOp _ => true
  | .dataExistsOp _ => true
  | .countEntriesOp q => !emptyQuery q
  | .findDistinctOp f => !(f = "")
  | .filterDataOp f => f.isSome
  | .paginateDataOp p s =>
      match p, s with
      | some page, some pageSize =>
          !(page = 0 || pageSize = 0 || page < 1 || pageSize < 1)
      | _, _ => false

end FasterDB

/-! ## Helper lemmas -/

namespace FasterDB

theorem loadData_loaded (st : DBState) (fs : FileState) (h : st.dataLoaded = true) :
    loadData st fs = ⟨st, fs, [], true⟩ := by
  simp [loadData, h]

theorem loadData_bad (st : DBState) (h : st.dataLoaded = false) :
    loadData st .bad = ⟨st, .bad, [], false⟩ := by
  simp [loadData, h]

theorem loadData_errorOccurred (st : DBState) (fs : FileState) :
    (loadData st fs).st.errorOccurred = st.errorOccurred := by
  cases fs <;> by_cases h : st.dataLoaded <;> simp [loadData, h, save]

theorem loadData_defaultData (st : DBState) (fs : FileState) :
    (loadData st fs).st.defaultData = st.defaultData := by
  cases fs <;> by_cases h : st.dataLoaded <;> simp [loadData, h, save]

theorem getField_append (l1 l2 : Rec) (k : String) :
    getField (l1 ++ l2) k =
      match getField l1 k with
      | some v => some v
      | none => getField l2 k := by
  induction l1 with
  | nil => simp [getField]
  | cons kv rest ih =>
      obtain ⟨k1, v1⟩ := kv
      by_cases h : k1 = k <;> simp [getField, h, ih]

theorem getField_spreadMap (d p : Rec) (k : String) :
    getField (d.map fun kv =>
      match getField p kv.1 with
      | some v2 => (kv.1, v2)
      | none => kv) k =
      match getField d k with
      | some v =>
          match getField p k with
          | some v2 => some v2
          | none => some v
      | none => none := by
  induction d with
  | nil => simp [getField]
  | cons kv rest ih =>
      obtain ⟨k1, v1⟩ := kv
      by_cases h : k1 = k
      · subst h
        cases hp : getField p k1 <;> simp [getField, hp]
      · cases hp : getField p k1 <;> simp [getField, h, ih, hp]

theorem getField_filterNotIn (d p : Rec) (k : String)
    (hd : getField d k = none) :
    getField (p.filter fun kv => (getField d kv.1).isNone) k = getField p k := by
  induction p with
  | nil => simp
  | cons kv rest ih =>
      obtain ⟨k2, v2⟩ := kv
      by_cases h : k2 = k
      · subst h
        simp [List.filter, getField, hd]
      · cases hmem : (getField d k2).isNone <;>
          simp [List.filter, getField, h, ih, hmem]

theorem getField_spread (d p : Rec) (k : String) :
    getField (spread d p) k =
      match getField p k with
      | some v => some v
      | none => getField d k := by
  unfold spread
  rw [getField_append, getField_spreadMap]
  cases hd : getField d k with
  | some v => cases hp : getField p k <;> simp
  | none =>
      rw [getField_filterNotIn d p k hd]
      cases hp : getField p k <;> simp

theorem find?_matchesQuery_nil (l : List Rec) :
    (l.find? fun e => matchesQuery e []) = l.head? := by
  cases l <;> simp [List.find?, matchesQuery]

theorem any_iff_filter_length_pos (l : List Rec) (p : Rec → Bool) :
    l.any p = true ↔ 0 < (l.filter p).length := by
  rw [List.any_eq_true, List.length_pos_iff_exists_mem]
  constructor
  · rintro ⟨x, hx, hpx⟩
    exact ⟨x, List.mem_filter.mpr ⟨hx, hpx⟩⟩
  · rintro ⟨x, hx⟩
    obtain ⟨hx1, hx2⟩ := List.mem_filter.mp hx
    exact ⟨x, hx1, hx2⟩

end FasterDB

/-! ## Concrete fixtures -/

namespace FasterDB

/-- `{ Name: "John", ID: 1 }`. -/
def recJohn : Rec := [("Name", .str "John"), ("ID", .int 1)]

/-- `{ Name: "Jane", ID: 2 }`. -/
def recJane : Rec := [("Name", .str "Jane"), ("ID", .int 2)]

/-- `{ Name: "", ID: 0 }`: a default template. -/
def defaultUser : Rec := [("Name", .str ""), ("ID", .int 0)]

/-- `{ ID: n }`. -/
def recN (n : Int) : Rec := [("ID", .int n)]

/-- A store handle whose data is already loaded. -/
def loadedSt (rs : List Rec) : DBState :=
  { data := rs, errorOccurred := false, dataLoaded := true,
    path := "t.fastdb", defaultData := defaultUser }

end FasterDB

/-! ## Claim theorems -/

namespace FasterDB

/-- C1, counterexample. The claim says `delete` with an empty query raises
before any file I/O, with the backing file neither read nor written and the
in-memory sequence unchanged. On a fresh handle over an existing file,
`delete({})` first runs `loadData` — the file is read, `connected` is
emitted and the sequence is replaced by the file contents — and then its
empty-query error is caught by its own `catch`, so the caller gets the
return value `0` instead of a raised error. -/
theorem delete_empty_query_reads_file_cex :
    (delete (mkDatabase "t" defaultUser) (.good [recJohn]) (some [])).st.data
        ≠ (mkDatabase "t" defaultUser).data
  ∧ (delete (mkDatabase "t" defaultUser) (.good [recJohn]) (some [])).events
        = [.connected "t.fastdb", .error "Cannot delete with an empty query"]
  ∧ (delete (mkDatabase "t" defaultUser) (.good [recJohn]) (some [])).res = 0 := by
  refine ⟨by decide, by decide, by decide⟩

/-- C1, amended. `countEntries` with an empty or absent query raises a
usage error to the immediate caller before any file access, leaving store
and file untouched, in EVERY state — loaded, fresh, or over any file.
`delete` and `dataExists` run `loadData` first and their empty-query
error is caught by their own `catch`: on a loaded store they leave the
sequence and the file unchanged, emit an `error` event, set
`errorOccurred`, and return `0` / `false` rather than raising. -/
theorem empty_query_error_handling (st : DBState) (fs : FileState)
    (q? : Option Rec) (hq : emptyQuery q? = true) :
    countEntries st fs q?
        = ⟨st, fs, [], .error "Cannot count entries with an empty query"⟩
  ∧ (st.dataLoaded = true →
        delete st fs q?
            = ⟨{ st with errorOccurred := true }, fs,
                [.error "Cannot delete with an empty query"], 0⟩
      ∧ dataExists st fs q?
            = ⟨{ st with errorOccurred := true }, fs,
                [.error "Cannot check existence with an empty query"], false⟩) := by
  refine ⟨by simp [countEntries, hq], fun hl => ⟨?_, ?_⟩⟩ <;>
    simp [delete, dataExists, loadData_loaded st fs hl, hq]

/-- C1, witness: `countEntries` exercised on a fresh, unloaded handle over
an existing file (no read, no write, no state change); `delete` and
`dataExists` on a loaded store. -/
theorem empty_query_error_handling_witness :
    countEntries (mkDatabase "t" defaultUser) (.good [recJohn]) none
        = ⟨mkDatabase "t" defaultUser, .good [recJohn], [],
            .error "Cannot count entries with an empty query"⟩
  ∧ delete (loadedSt [recJohn]) .absent (some [])
        = ⟨{ loadedSt [recJohn] with errorOccurred := true }, .absent,
            [.error "Cannot delete with an empty query"], 0⟩
  ∧ dataExists (loadedSt [recJohn]) .absent (some [])
        = ⟨{ loadedSt [recJohn] with errorOccurred := true }, .absent,
            [.error "Cannot check existence with an empty query"], false⟩ :=
  ⟨(empty_query_error_handling (mkDatabase "t" defaultUser) (.good [recJohn])
      none (by decide)).1,
   ((empty_query_error_handling (loadedSt [recJohn]) .absent (some [])
      (by decide)).2 (by decide)).1,
   ((empty_query_error_handling (loadedSt [recJohn]) .absent (some [])
      (by decide)).2 (by decide)).2⟩

end FasterDB

namespace FasterDB

/-- C2, counterexample. The claim says `get` with an empty query emits an
`error` event and returns `undefined`. But `!query` is false for the
truthy empty object `{}`, so `get({})` falls through to the linear search,
whose loop body runs zero times and accepts every record: on a loaded
store holding one record it returns that record and emits nothing. -/
theorem get_empty_object_query_cex :
    (get (loadedSt [recJohn]) .absent (some [])).res = some recJohn
  ∧ (get (loadedSt [recJohn]) .absent (some [])).events = [] := by
  refine ⟨by decide, by decide⟩

/-- C2, amended. On a loaded store, `get` with an absent (`undefined` /
`null`) query emits an `error` event and returns `undefined` without
raising; `get` with any present query `q` — including the empty object —
returns the first record for which every field of `q` is strictly equal to
the record's corresponding field (`undefined` if none matches); in
particular the empty-object query matches everything and returns the head
of the sequence. -/
theorem get_query_semantics (st : DBState) (fs : FileState) (q : Rec)
    (hl : st.dataLoaded = true) :
    get st fs none = ⟨st, fs, [.error "Cannot search for an empty query"], none⟩
  ∧ (get st fs (some q)).res = st.data.find? (fun e => matchesQuery e q)
  ∧ (get st fs (some [])).res = st.data.head? := by
  refine ⟨?_, ?_, ?_⟩ <;>
    simp [get, loadData_loaded st fs hl, find?_matchesQuery_nil]

/-- C2, witness. -/
theorem get_query_semantics_witness :
    get (loadedSt [recJohn, recJane]) .absent none
        = ⟨loadedSt [recJohn, recJane], .absent,
            [.error "Cannot search for an empty query"], none⟩
  ∧ (get (loadedSt [recJohn, recJane]) .absent (some [("Name", .str "Jane")])).res
        = (loadedSt [recJohn, recJane]).data.find?
            (fun e => matchesQuery e [("Name", .str "Jane")])
  ∧ (get (loadedSt [recJohn, recJane]) .absent (some [])).res
        = (loadedSt [recJohn, recJane]).data.head? :=
  get_query_semantics (loadedSt [recJohn, recJane]) .absent
    [("Name", .str "Jane")] (by decide)

/-- C3, counterexample. The claim says `insert` with an empty partial
record emits `error`, returns `undefined` and appends nothing. But
`!data` is false for the truthy empty object, so `insert({})` builds
`{...default, ...{}}` — a copy of the default template — appends it,
persists, emits `newData` and returns it. -/
theorem insert_empty_object_cex :
    (insert (loadedSt []) .absent (some [])).res = some defaultUser
  ∧ (insert (loadedSt []) .absent (some [])).st.data = [defaultUser]
  ∧ (insert (loadedSt []) .absent (some [])).events = [.newData defaultUser]
  ∧ (insert (loadedSt []) .absent (some [])).fs = .good [defaultUser] := by
  refine ⟨by decide, by decide, by decide, by decide⟩

/-- C3, amended. On a loaded store, `insert` with an absent (`undefined` /
`null`) argument emits an `error` event, returns `undefined` and appends
nothing; `insert` with any present partial record — including the empty
object — appends the default template overlaid with the supplied fields. -/
theorem insert_absent_vs_empty (st : DBState) (fs : FileState)
    (hl : st.dataLoaded = true) :
    insert st fs none
        = ⟨st, fs, [.error "Data to insert cannot be empty"], none⟩
  ∧ ∀ p : Rec, (insert st fs (some p)).st.data
        = st.data ++ [spread st.defaultData p] := by
  constructor
  · simp [insert, loadData_loaded st fs hl]
  · intro p
    simp [insert, loadData_loaded st fs hl]

/-- C3, witness. -/
theorem insert_absent_vs_empty_witness :
    insert (loadedSt []) .absent none
        = ⟨loadedSt [], .absent, [.error "Data to insert cannot be empty"], none⟩
  ∧ ∀ p : Rec, (insert (loadedSt []) .absent (some p)).st.data
        = (loadedSt []).data ++ [spread (loadedSt []).defaultData p] :=
  insert_absent_vs_empty (loadedSt []) .absent (by decide)

end FasterDB

namespace FasterDB

/-- C4, counterexample. The claim says that after a load call that
succeeds the loaded flag is set and every subsequent call is a no-op,
including when the first call found the file absent. On a fresh handle
over an absent file the first `loadData` initializes and writes the empty
sequence but leaves `dataLoaded` false and emits nothing; the second call
is not a no-op: it reads the file back, only then sets the flag and emits
`connected`. -/
theorem loadData_absent_flag_cex :
    (loadData (mkDatabase "p" []) .absent).st.dataLoaded = false
  ∧ (loadData (mkDatabase "p" []) .absent).fs = .good []
  ∧ (loadData (mkDatabase "p" []) .absent).events = []
  ∧ (loadData (loadData (mkDatabase "p" []) .absent).st
        (loadData (mkDatabase "p" []) .absent).fs).events
      = [.connected "p.fastdb"]
  ∧ (loadData (loadData (mkDatabase "p" []) .absent).st
        (loadData (mkDatabase "p" []) .absent).fs).st.dataLoaded = true := by
  refine ⟨by decide, by decide, by decide, by decide, by decide⟩

/-- C4, amended. Loading is idempotent in the resulting sequence and emits
`connected` at most once per call pair. On an unloaded handle over an
existing readable file, the first call reads it, sets `dataLoaded` and
emits `connected`, and the second call is a no-op. Over an absent file,
the first call sets the sequence to empty and writes it back but leaves
`dataLoaded` false and emits nothing; the second call re-reads the file
(now present and empty), sets the flag and emits `connected` — so across
the two calls the sequence is the same (the file contents, resp. empty)
and `connected` fires exactly once. Once `dataLoaded` is true every call
is a no-op. -/
theorem loadData_idempotence (st : DBState) (fs : FileState)
    (hl : st.dataLoaded = false) :
    (∀ rs, fs = .good rs →
        loadData st fs
            = ⟨{ st with data := rs, dataLoaded := true }, fs,
                [.connected st.path], true⟩
      ∧ loadData { st with data := rs, dataLoaded := true } fs
            = ⟨{ st with data := rs, dataLoaded := true }, fs, [], true⟩)
  ∧ (fs = .absent →
        loadData st fs = ⟨{ st with data := [] }, .good [], [], true⟩
      ∧ loadData { st with data := [] } (.good [])
            = ⟨{ st with data := [], dataLoaded := true }, .good [],
                [.connected st.path], true⟩)
  ∧ (∀ st' : DBState, st'.dataLoaded = true → loadData st' fs = ⟨st', fs, [], true⟩) := by
  refine ⟨?_, ?_, ?_⟩
  · rintro rs rfl
    exact ⟨by simp [loadData, hl], by simp [loadData]⟩
  · rintro rfl
    exact ⟨by simp [loadData, hl, save], by simp [loadData, hl]⟩
  · intro st' h
    exact loadData_loaded st' fs h

/-- C4, witness. -/
theorem loadData_idempotence_witness :
    (∀ rs, FileState.absent = .good rs →
        loadData (mkDatabase "p" []) .absent
            = ⟨{ mkDatabase "p" [] with data := rs, dataLoaded := true },
                .absent, [.connected (mkDatabase "p" []).path], true⟩
      ∧ loadData { mkDatabase "p" [] with data := rs, dataLoaded := true } .absent
            = ⟨{ mkDatabase "p" [] with data := rs, dataLoaded := true },
                .absent, [], true⟩)
  ∧ (FileState.absent = .absent →
        loadData (mkDatabase "p" []) .absent
            = ⟨{ mkDatabase "p" [] with data := [] }, .good [], [], true⟩
      ∧ loadData { mkDatabase "p" [] with data := [] } (.good [])
            = ⟨{ mkDatabase "p" [] with data := [], dataLoaded := true },
                .good [], [.connected (mkDatabase "p" []).path], true⟩)
  ∧ (∀ st' : DBState, st'.dataLoaded = true →
        loadData st' .absent = ⟨st', .absent, [], true⟩) :=
  loadData_idempotence (mkDatabase "p" []) .absent (by decide)

end FasterDB

namespace FasterDB

/-- C5. For every non-empty partial record `p` inserted into a store with
default template `st.defaultData`, under a successful load, the record
appended to the sequence, written to the file, carried by the `newData`
event and returned by `insert` is `spread st.defaultData p` — the
template overlaid field-by-field with `p`, `p`'s fields winning: looking
up any field in it gives `p`'s binding when present and the template's
otherwise. -/
theorem insert_overlay_default (st : DBState) (fs : FileState) (p : Rec)
    (_hp : p ≠ []) (hok : (loadData st fs).ok = true) :
    insert st fs (some p)
        = ⟨{ (loadData st fs).st with
              data := (loadData st fs).st.data ++ [spread st.defaultData p] },
            .good ((loadData st fs).st.data ++ [spread st.defaultData p]),
            (loadData st fs).events ++ [.newData (spread st.defaultData p)],
            some (spread st.defaultData p)⟩
  ∧ ∀ k, getField (spread st.defaultData p) k
        = match getField p k with
          | some v => some v
          | none => getField st.defaultData k := by
  constructor
  · simp [insert, hok, save, loadData_defaultData st fs]
  · intro k
    exact getField_spread st.defaultData p k

/-- C5, witness: inserting `{Name: "John", ID: 1}` over the default
template `{Name: "", ID: 0}`. -/
theorem insert_overlay_default_witness :
    insert (loadedSt []) .absent (some recJohn)
        = ⟨{ (loadData (loadedSt []) .absent).st with
              data := (loadData (loadedSt []) .absent).st.data
                ++ [spread (loadedSt []).defaultData recJohn] },
            .good ((loadData (loadedSt []) .absent).st.data
                ++ [spread (loadedSt []).defaultData recJohn]),
            (loadData (loadedSt []) .absent).events
              ++ [.newData (spread (loadedSt []).defaultData recJohn)],
            some (spread (loadedSt []).defaultData recJohn)⟩
  ∧ ∀ k, getField (spread (loadedSt []).defaultData recJohn) k
        = match getField recJohn k with
          | some v => some v
          | none => getField (loadedSt []).defaultData k :=
  insert_overlay_default (loadedSt []) .absent recJohn (by decide) (by decide)

end FasterDB

namespace FasterDB

/-- C6. For every store state, file state and non-empty query `q`,
`dataExists` returns `true` exactly when `countEntries` returns a count
strictly greater than zero: both are governed by the same partial-match
predicate `matchesQuery` over the same loaded sequence, and when the load
fails `dataExists` returns `false` while `countEntries` returns
`undefined` (not a positive count). -/
theorem exists_iff_count_pos (st : DBState) (fs : FileState) (q : Rec)
    (hq : q ≠ []) :
    (dataExists st fs (some q)).res = true
      ↔ ∃ n, (countEntries st fs (some q)).res = .ok (some n) ∧ 0 < n := by
  have hq' : emptyQuery (some q) = false := by
    simp [emptyQuery, hq]
  by_cases hok : (loadData st fs).ok = true
  · simp only [dataExists, countEntries, hq', Bool.false_eq_true, if_false,
      if_pos hok, Option.getD_some]
    rw [any_iff_filter_length_pos]
    constructor
    · intro h
      exact ⟨_, rfl, h⟩
    · rintro ⟨n, hn, hpos⟩
      have : ((loadData st fs).st.data.filter
          fun e => matchesQuery e q).length = n := by
        simpa using hn
      omega
  · rw [Bool.not_eq_true] at hok
    simp [dataExists, countEntries, hq', hok]

/-- C6, witness. -/
theorem exists_iff_count_pos_witness :
    ((dataExists (loadedSt [recJohn, recJane]) .absent
        (some [("Name", .str "Jane")])).res = true
      ↔ ∃ n, (countEntries (loadedSt [recJohn, recJane]) .absent
          (some [("Name", .str "Jane")])).res = .ok (some n) ∧ 0 < n) :=
  exists_iff_count_pos (loadedSt [recJohn, recJane]) .absent
    [("Name", .str "Jane")] (by decide)

end FasterDB

namespace FasterDB

/-- C7. For every store state, file state and non-empty query `q`, under a
successful load, `delete` keeps exactly the records for which
`matchesQuery` is false, writes the kept sequence to the file, emits one
`dataDeleted` event whose `OriginalLength` is the length before deletion
and `ActualLength` the length after, and returns the number of removed
records (original length minus new length). -/
theorem delete_filters_persists_counts (st : DBState) (fs : FileState)
    (q : Rec) (hq : q ≠ []) (hok : (loadData st fs).ok = true) :
    delete st fs (some q)
        = ⟨{ (loadData st fs).st with
              data := (loadData st fs).st.data.filter
                fun e => !matchesQuery e q },
            .good ((loadData st fs).st.data.filter
                fun e => !matchesQuery e q),
            (loadData st fs).events
              ++ [.dataDeleted (loadData st fs).st.data.length
                    ((loadData st fs).st.data.filter
                      fun e => !matchesQuery e q).length true],
            (loadData st fs).st.data.length
              - ((loadData st fs).st.data.filter
                  fun e => !matchesQuery e q).length⟩ := by
  have hq' : emptyQuery (some q) = false := by
    simp [emptyQuery, hq]
  simp [delete, hok, hq', save]

/-- C7, witness: deleting `{Name: "John"}` from `[recJohn, recJane]`. -/
theorem delete_filters_persists_counts_witness :
    delete (loadedSt [recJohn, recJane]) .absent (some [("Name", .str "John")])
        = ⟨{ (loadData (loadedSt [recJohn, recJane]) .absent).st with
              data := (loadData (loadedSt [recJohn, recJane]) .absent).st.data.filter
                fun e => !matchesQuery e [("Name", .str "John")] },
            .good ((loadData (loadedSt [recJohn, recJane]) .absent).st.data.filter
                fun e => !matchesQuery e [("Name", .str "John")]),
            (loadData (loadedSt [recJohn, recJane]) .absent).events
              ++ [.dataDeleted (loadData (loadedSt [recJohn, recJane]) .absent).st.data.length
                    ((loadData (loadedSt [recJohn, recJane]) .absent).st.data.filter
                      fun e => !matchesQuery e [("Name", .str "John")]).length true],
            (loadData (loadedSt [recJohn, recJane]) .absent).st.data.length
              - ((loadData (loadedSt [recJohn, recJane]) .absent).st.data.filter
                  fun e => !matchesQuery e [("Name", .str "John")]).length⟩ :=
  delete_filters_persists_counts (loadedSt [recJohn, recJane]) .absent
    [("Name", .str "John")] (by decide) (by decide)

end FasterDB

namespace FasterDB

/-- C8. On a loaded store, `paginateData` raises a usage error exactly
when `page` or `pageSize` is missing, zero, or negative (i.e. not both
present and at least 1); otherwise it returns the slice of the sequence
at 0-based offset `(page - 1) * pageSize` of length at most `pageSize`,
clipped to the sequence's bounds — never an error when the offset exceeds
the length. -/
theorem paginate_raises_iff_and_slices (st : DBState) (fs : FileState)
    (page? pageSize? : Option Int) (hl : st.dataLoaded = true) :
    ((∃ msg, (paginateData st fs page? pageSize?).res = .error msg)
        ↔ ¬ ∃ p s, page? = some p ∧ pageSize? = some s ∧ 1 ≤ p ∧ 1 ≤ s)
  ∧ ∀ p s, page? = some p → pageSize? = some s → 1 ≤ p → 1 ≤ s →
      (paginateData st fs page? pageSize?).res
        = .ok (some ((st.data.drop ((p - 1) * s).toNat).take s.toNat)) := by
  cases page? with
  | none => simp [paginateData]
  | some p =>
      cases pageSize? with
      | none => simp [paginateData]
      | some s =>
          by_cases h : 1 ≤ p ∧ 1 ≤ s
          · have hc : (p = 0 || s = 0 || p < 1 || s < 1) = false := by
              simp only [Bool.or_eq_false_iff, decide_eq_false_iff_not]
              omega
            constructor
            · simp only [paginateData, hc, Bool.false_eq_true, if_false,
                loadData_loaded st fs hl]
              simp only [LoadResult.ok] at *
              constructor
              · rintro ⟨msg, hmsg⟩
                simp at hmsg
              · intro hcon
                exact absurd ⟨p, s, rfl, rfl, h.1, h.2⟩ hcon
            · intro p' s' hp' hs' hp1 hs1
              obtain rfl : p = p' := Option.some.inj hp'
              obtain rfl : s = s' := Option.some.inj hs'
              simp [paginateData, hc, loadData_loaded st fs hl]
          · have hc : (p = 0 || s = 0 || p < 1 || s < 1) = true := by
              simp only [Bool.or_eq_true_iff, decide_eq_true_eq]
              omega
            constructor
            · simp only [paginateData, hc, if_true]
              constructor
              · rintro - hcon
                obtain ⟨p', s', hp', hs', hp1, hs1⟩ := hcon
                obtain rfl : p = p' := Option.some.inj hp'
                obtain rfl : s = s' := Option.some.inj hs'
                exact h ⟨hp1, hs1⟩
              · intro
                exact ⟨"Invalid parameters for pagination", rfl⟩
            · intro p' s' hp' hs' hp1 hs1
              obtain rfl : p = p' := Option.some.inj hp'
              obtain rfl : s = s' := Option.some.inj hs'
              exact absurd ⟨hp1, hs1⟩ h

end FasterDB

namespace FasterDB

/-- C8, witness: over the 5-record sequence `[recN 0, …, recN 4]`,
`paginateData(2, 3)` is not an error and returns the records at 0-based
indices 3 and 4. -/
theorem paginate_raises_iff_and_slices_witness :
    (paginateData (loadedSt [recN 0, recN 1, recN 2, recN 3, recN 4]) .absent
        (some 2) (some 3)).res = .ok (some [recN 3, recN 4]) := by
  have h := paginate_raises_iff_and_slices
    (loadedSt [recN 0, recN 1, recN 2, recN 3, recN 4]) .absent
    (some 2) (some 3) (by decide)
  rw [h.2 2 3 rfl rfl (by decide) (by decide)]
  rfl

end FasterDB

namespace FasterDB

theorem insert_errorOccurred_mono (st : DBState) (fs : FileState)
    (d : Option Rec) (h : st.errorOccurred = true) :
    (insert st fs d).st.errorOccurred = true := by
  have h1 : (loadData st fs).st.errorOccurred = true := by
    rw [loadData_errorOccurred]; exact h
  cases hok : (loadData st fs).ok <;> cases d <;> simp [insert, hok, h1]

theorem getAll_errorOccurred_mono (st : DBState) (fs : FileState)
    (h : st.errorOccurred = true) :
    (getAll st fs).st.errorOccurred = true := by
  have h1 : (loadData st fs).st.errorOccurred = true := by
    rw [loadData_errorOccurred]; exact h
  cases hok : (loadData st fs).ok <;> simp [getAll, hok, h1]

theorem deleteAll_errorOccurred_mono (st : DBState) (fs : FileState)
    (h : st.errorOccurred = true) :
    (deleteAll st fs).st.errorOccurred = true := by
  have h1 : (loadData st fs).st.errorOccurred = true := by
    rw [loadData_errorOccurred]; exact h
  cases hok : (loadData st fs).ok <;> simp [deleteAll, hok, h1]

theorem get_errorOccurred_mono (st : DBState) (fs : FileState)
    (q : Option Rec) (h : st.errorOccurred = true) :
    (get st fs q).st.errorOccurred = true := by
  have h1 : (loadData st fs).st.errorOccurred = true := by
    rw [loadData_errorOccurred]; exact h
  cases hok : (loadData st fs).ok <;> cases q <;> simp [get, hok, h1]

theorem delete_errorOccurred_mono (st : DBState) (fs : FileState)
    (q : Option Rec) (h : st.errorOccurred = true) :
    (delete st fs q).st.errorOccurred = true := by
  have h1 : (loadData st fs).st.errorOccurred = true := by
    rw [loadData_errorOccurred]; exact h
  cases hok : (loadData st fs).ok <;> cases hq : emptyQuery q <;>
    simp [delete, hok, hq, h1]

theorem dataExists_errorOccurred_mono (st : DBState) (fs : FileState)
    (q : Option Rec) (h : st.errorOccurred = true) :
    (dataExists st fs q).st.errorOccurred = true := by
  have h1 : (loadData st fs).st.errorOccurred = true := by
    rw [loadData_errorOccurred]; exact h
  cases hok : (loadData st fs).ok <;> cases hq : emptyQuery q <;>
    simp [dataExists, hok, hq, h1]

theorem countEntries_errorOccurred_mono (st : DBState) (fs : FileState)
    (q : Option Rec) (h : st.errorOccurred = true) :
    (countEntries st fs q).st.errorOccurred = true := by
  have h1 : (loadData st fs).st.errorOccurred = true := by
    rw [loadData_errorOccurred]; exact h
  cases hok : (loadData st fs).ok <;> cases hq : emptyQuery q <;>
    simp [countEntries, hok, hq, h1, h]

theorem findDistinct_errorOccurred_mono (st : DBState) (fs : FileState)
    (f : String) (h : st.errorOccurred = true) :
    (findDistinct st fs f).st.errorOccurred = true := by
  have h1 : (loadData st fs).st.errorOccurred = true := by
    rw [loadData_errorOccurred]; exact h
  have h2 : (getAll (loadData st fs).st (loadData st fs).fs).st.errorOccurred = true :=
    getAll_errorOccurred_mono _ _ h1
  by_cases hf : f = ""
  · simp [findDistinct, hf, h]
  · cases hok : (loadData st fs).ok <;>
      cases hres : (getAll (loadData st fs).st (loadData st fs).fs).res <;>
      simp [findDistinct, hf, hok, hres, h1, h2]

theorem filterData_errorOccurred_mono (st : DBState) (fs : FileState)
    (f : Option (Rec → Bool)) (h : st.errorOccurred = true) :
    (filterData st fs f).st.errorOccurred = true := by
  have h1 : (loadData st fs).st.errorOccurred = true := by
    rw [loadData_errorOccurred]; exact h
  cases f <;> cases hok : (loadData st fs).ok <;>
    simp [filterData, hok, h1, h]

theorem paginateData_errorOccurred_mono (st : DBState) (fs : FileState)
    (p? s? : Option Int) (h : st.errorOccurred = true) :
    (paginateData st fs p? s?).st.errorOccurred = true := by
  have h1 : (loadData st fs).st.errorOccurred = true := by
    rw [loadData_errorOccurred]; exact h
  cases p? with
  | none => simp [paginateData, h]
  | some p =>
      cases s? with
      | none => simp [paginateData, h]
      | some s =>
          cases hc : (p = 0 || s = 0 || p < 1 || s < 1 : Bool) <;>
            cases hok : (loadData st fs).ok <;>
            simp [paginateData, hc, hok, h1, h]

end FasterDB

namespace FasterDB

theorem applyOp_bad_sets_errorOccurred (op : Op) (st : DBState)
    (hr : reachesLoad op = true) (hl : st.dataLoaded = false) :
    (applyOp op st .bad).1.errorOccurred = true := by
  have hLD := loadData_bad st hl
  cases op with
  | insertOp d => cases d <;> simp [applyOp, insert, hLD]
  | getAllOp => simp [applyOp, getAll, hLD]
  | deleteAllOp => simp [applyOp, deleteAll, hLD]
  | getOp q => cases q <;> simp [applyOp, get, hLD]
  | deleteOp q => simp [applyOp, delete, hLD]
  | dataExistsOp q => simp [applyOp, dataExists, hLD]
  | countEntriesOp q =>
      have hq : emptyQuery q = false := by
        simpa [reachesLoad] using hr
      simp [applyOp, countEntries, hLD, hq]
  | findDistinctOp f =>
      have hf : ¬(f = "") := by simpa [reachesLoad] using hr
      simp [applyOp, findDistinct, hLD, hf]
  | filterDataOp f =>
      obtain ⟨fn, rfl⟩ := Option.isSome_iff_exists.mp (by simpa [reachesLoad] using hr)
      simp [applyOp, filterData, hLD]
  | paginateDataOp p? s? =>
      cases p? with
      | none => simp [reachesLoad] at hr
      | some p =>
          cases s? with
          | none => simp [reachesLoad] at hr
          | some s =>
              have hc : (p = 0 || s = 0 || p < 1 || s < 1 : Bool) = false := by
                simpa [reachesLoad] using hr
              simp [applyOp, paginateData, hLD, hc]

theorem applyOp_errorOccurred_mono (op : Op) (st : DBState) (fs : FileState)
    (h : st.errorOccurred = true) :
    (applyOp op st fs).1.errorOccurred = true := by
  cases op with
  | insertOp d => exact insert_errorOccurred_mono st fs d h
  | getAllOp => exact getAll_errorOccurred_mono st fs h
  | deleteAllOp => exact deleteAll_errorOccurred_mono st fs h
  | getOp q => exact get_errorOccurred_mono st fs q h
  | deleteOp q => exact delete_errorOccurred_mono st fs q h
  | dataExistsOp q => exact dataExists_errorOccurred_mono st fs q h
  | countEntriesOp q => exact countEntries_errorOccurred_mono st fs q h
  | findDistinctOp f => exact findDistinct_errorOccurred_mono st fs f h
  | filterDataOp f => exact filterData_errorOccurred_mono st fs f h
  | paginateDataOp p s => exact paginateData_errorOccurred_mono st fs p s h

/-- C9. The `errorOccurred` flag is sticky: it is `false` on a freshly
constructed handle; once `true`, no public operation — whatever its
arguments and whether it succeeds or fails — ever resets it; and any
operation whose argument check lets it reach the load catches a failing
read (a bad file on an unloaded handle) and sets the flag to `true`. -/
theorem errorOccurred_sticky (op : Op) (st : DBState) (fs : FileState) :
    (∀ path dft, (mkDatabase path dft).errorOccurred = false)
  ∧ (st.errorOccurred = true → (applyOp op st fs).1.errorOccurred = true)
  ∧ (reachesLoad op = true → st.dataLoaded = false → fs = .bad →
      (applyOp op st fs).1.errorOccurred = true) := by
  refine ⟨fun _ _ => rfl, fun h => applyOp_errorOccurred_mono op st fs h, ?_⟩
  rintro hr hl rfl
  exact applyOp_bad_sets_errorOccurred op st hr hl

/-- C9, witness. -/
theorem errorOccurred_sticky_witness :
    (applyOp .getAllOp { loadedSt [] with errorOccurred := true } .absent).1.errorOccurred
        = true
  ∧ (applyOp .getAllOp (mkDatabase "x" []) .bad).1.errorOccurred = true :=
  ⟨(errorOccurred_sticky .getAllOp { loadedSt [] with errorOccurred := true }
      .absent).2.1 rfl,
   (errorOccurred_sticky .getAllOp (mkDatabase "x" []) .bad).2.2 rfl rfl rfl⟩

end FasterDB

namespace FasterDB

/-- C10, counterexample. The claim says every pure query operation leaves
the in-memory sequence exactly as it was, for every store state. On an
unloaded handle the first query operation runs `loadData`, which replaces
the (initially empty) in-memory sequence with the file contents: `getAll`
on a fresh handle over a one-record file changes the sequence. -/
theorem query_op_unloaded_changes_data_cex :
    (getAll (mkDatabase "t" defaultUser) (.good [recJohn])).st.data
      ≠ (mkDatabase "t" defaultUser).data := by
  decide

theorem loadData_loadData_data (st : DBState) (fs : FileState) :
    (loadData (loadData st fs).st (loadData st fs).fs).st.data
      = (loadData st fs).st.data := by
  by_cases h : st.dataLoaded <;> cases fs <;> simp [loadData, h, save]

theorem getAll_data_eq_load (st : DBState) (fs : FileState) :
    (getAll st fs).st.data = (loadData st fs).st.data := by
  cases hok : (loadData st fs).ok <;> simp [getAll, hok]

/-- C10, amended. On a loaded store (`dataLoaded = true`), every pure
query operation — `get`, `getAll`, `dataExists`, `countEntries`,
`findDistinct`, `filterData` and `paginateData` — leaves the in-memory
record sequence exactly as it was, for every argument. In every state,
loaded or not, the only change any of them can make to the sequence is
the one-time initial load: after the call the sequence is either exactly
what it was (the pre-`try` usage-error paths) or exactly the sequence
`loadData` produces from the file. -/
theorem query_ops_preserve_data (st : DBState) (fs : FileState)
    (q? : Option Rec) (f : String) (fn? : Option (Rec → Bool))
    (p? s? : Option Int) :
    (st.dataLoaded = true →
        (get st fs q?).st.data = st.data
      ∧ (getAll st fs).st.data = st.data
      ∧ (dataExists st fs q?).st.data = st.data
      ∧ (countEntries st fs q?).st.data = st.data
      ∧ (findDistinct st fs f).st.data = st.data
      ∧ (filterData st fs fn?).st.data = st.data
      ∧ (paginateData st fs p? s?).st.data = st.data)
  ∧ (get st fs q?).st.data = (loadData st fs).st.data
  ∧ (getAll st fs).st.data = (loadData st fs).st.data
  ∧ (dataExists st fs q?).st.data = (loadData st fs).st.data
  ∧ ((countEntries st fs q?).st.data = st.data
      ∨ (countEntries st fs q?).st.data = (loadData st fs).st.data)
  ∧ ((findDistinct st fs f).st.data = st.data
      ∨ (findDistinct st fs f).st.data = (loadData st fs).st.data)
  ∧ ((filterData st fs fn?).st.data = st.data
      ∨ (filterData st fs fn?).st.data = (loadData st fs).st.data)
  ∧ ((paginateData st fs p? s?).st.data = st.data
      ∨ (paginateData st fs p? s?).st.data = (loadData st fs).st.data) := by
  have hGen :
      (get st fs q?).st.data = (loadData st fs).st.data
    ∧ (getAll st fs).st.data = (loadData st fs).st.data
    ∧ (dataExists st fs q?).st.data = (loadData st fs).st.data
    ∧ ((countEntries st fs q?).st.data = st.data
        ∨ (countEntries st fs q?).st.data = (loadData st fs).st.data)
    ∧ ((findDistinct st fs f).st.data = st.data
        ∨ (findDistinct st fs f).st.data = (loadData st fs).st.data)
    ∧ ((filterData st fs fn?).st.data = st.data
        ∨ (filterData st fs fn?).st.data = (loadData st fs).st.data)
    ∧ ((paginateData st fs p? s?).st.data = st.data
        ∨ (paginateData st fs p? s?).st.data = (loadData st fs).st.data) := by
    refine ⟨?_, ?_, ?_, ?_, ?_, ?_, ?_⟩
    · cases q? <;> cases hok : (loadData st fs).ok <;> simp [get, hok]
    · exact getAll_data_eq_load st fs
    · cases hq : emptyQuery q? <;> cases hok : (loadData st fs).ok <;>
        simp [dataExists, hok, hq]
    · cases hq : emptyQuery q?
      · right
        cases hok : (loadData st fs).ok <;> simp [countEntries, hok, hq]
      · left
        simp [countEntries, hq]
    · by_cases hf : f = ""
      · left
        simp [findDistinct, hf]
      · right
        have hG : (getAll (loadData st fs).st (loadData st fs).fs).st.data
            = (loadData st fs).st.data := by
          rw [getAll_data_eq_load, loadData_loadData_data]
        cases hok : (loadData st fs).ok <;>
          cases hres : (getAll (loadData st fs).st (loadData st fs).fs).res <;>
          simp [findDistinct, hf, hok, hres, hG]
    · cases fn? with
      | none => left; simp [filterData]
      | some fn =>
          right
          cases hok : (loadData st fs).ok <;> simp [filterData, hok]
    · cases p? with
      | none => left; simp [paginateData]
      | some p =>
          cases s? with
          | none => left; simp [paginateData]
          | some s =>
              cases hc : (p = 0 || s = 0 || p < 1 || s < 1 : Bool)
              · right
                cases hok : (loadData st fs).ok <;> simp [paginateData, hc, hok]
              · left
                simp [paginateData, hc]
  refine ⟨fun hl => ?_, hGen⟩
  have hLD : (loadData st fs).st.data = st.data := by
    rw [loadData_loaded st fs hl]
  refine ⟨?_, ?_, ?_, ?_, ?_, ?_, ?_⟩
  · rw [hGen.1, hLD]
  · rw [hGen.2.1, hLD]
  · rw [hGen.2.2.1, hLD]
  · rcases hGen.2.2.2.1 with h | h
    · exact h
    · rw [h, hLD]
  · rcases hGen.2.2.2.2.1 with h | h
    · exact h
    · rw [h, hLD]
  · rcases hGen.2.2.2.2.2.1 with h | h
    · exact h
    · rw [h, hLD]
  · rcases hGen.2.2.2.2.2.2 with h | h
    · exact h
    · rw [h, hLD]

/-- C10, witness: the loaded-store half at a one-record loaded handle, and
the only-change-is-the-load half at a fresh unloaded handle over a
one-record file (where `getAll` makes the sequence the loaded one). -/
theorem query_ops_preserve_data_witness :
    ((get (loadedSt [recJohn]) .absent (some [])).st.data = (loadedSt [recJohn]).data
      ∧ (getAll (loadedSt [recJohn]) .absent).st.data = (loadedSt [recJohn]).data
      ∧ (dataExists (loadedSt [recJohn]) .absent (some [])).st.data
          = (loadedSt [recJohn]).data
      ∧ (countEntries (loadedSt [recJohn]) .absent (some [])).st.data
          = (loadedSt [recJohn]).data
      ∧ (findDistinct (loadedSt [recJohn]) .absent "Name").st.data
          = (loadedSt [recJohn]).data
      ∧ (filterData (loadedSt [recJohn]) .absent (some fun _ => true)).st.data
          = (loadedSt [recJohn]).data
      ∧ (paginateData (loadedSt [recJohn]) .absent (some 1) (some 1)).st.data
          = (loadedSt [recJohn]).data)
  ∧ (getAll (mkDatabase "t" defaultUser) (.good [recJohn])).st.data
      = (loadData (mkDatabase "t" defaultUser) (.good [recJohn])).st.data :=
  ⟨(query_ops_preserve_data (loadedSt [recJohn]) .absent (some []) "Name"
      (some fun _ => true) (some 1) (some 1)).1 (by decide),
   (query_ops_preserve_data (mkDatabase "t" defaultUser) (.good [recJohn])
      none "Name" none none none).2.2.1⟩

end FasterDB
